import Mathlib

/-!
Shallow embedding of the-batch-rag-app ingestion pipeline.

Source files modelled:
* `src/helpers/ingestion.py` — `IngestionHelper.compute_doc_hash`,
  `IngestionHelper.compute_image_hash`
* `src/helpers/vectorstore_manager.py` — `FaissManager.load_or_create`,
  `FaissManager.save`
* `src/preprocessing/documents_processing.py` —
  `VectorStoreBatchProcessor._read_urls_file`, `_summarize_text`,
  `process_urls`, `process_images`

External library calls (hashlib.md5, the OpenAI chat model, OpenAI embeddings,
WebBaseLoader) are taken as function parameters of the model; everything the
repository itself computes is translated concretely.
-/

namespace BatchRag

/-- Python `str()` applied to the result of `metadata.get(key)`:
`str(None)` is the string `"None"`, `str(s)` for a `str` is `s` itself. -/
def pyStr : Option String → String
  | none => "None"
  | some s => s

/-- Lower-case hexadecimal digit, as produced by Python for `\uXXXX` escapes. -/
def hexDigit (n : Nat) : Char :=
  if n < 10 then Char.ofNat (48 + n) else Char.ofNat (87 + n)

/-- A six-character `\uXXXX` escape for a 16-bit code unit. -/
def uEscape (n : Nat) : List Char :=
  ['\\', 'u', hexDigit (n / 4096 % 16), hexDigit (n / 256 % 16),
   hexDigit (n / 16 % 16), hexDigit (n % 16)]

/-- Escaping of one character by Python `json.dumps` (default `ensure_ascii=True`). -/
def jsonEscapeChar (c : Char) : List Char :=
  let n := c.toNat
  if c = '"' then ['\\', '"']
  else if c = '\\' then ['\\', '\\']
  else if c = '\n' then ['\\', 'n']
  else if c = '\r' then ['\\', 'r']
  else if c = '\t' then ['\\', 't']
  else if n = 8 then ['\\', 'b']
  else if n = 12 then ['\\', 'f']
  else if n < 32 then uEscape n
  else if n < 127 then [c]
  else if n < 65536 then uEscape n
  else uEscape (55296 + (n - 65536) / 1024) ++ uEscape (56320 + (n - 65536) % 1024)

/-- Python `json.dumps` applied to a `str` value: the escaped characters wrapped
in double quotes.  (`sort_keys=True` and `default=str` are irrelevant for a
plain string argument.)  `.encode("utf-8")` is injective, so the byte string is
modelled by the Lean string itself. -/
def pyJsonDumpsStr (s : String) : String :=
  ⟨'"' :: (s.data.flatMap jsonEscapeChar) ++ ['"']⟩

/-- The metadata fields of a langchain `Document` that this pipeline reads or
writes.  `metadata.get` of an absent key is `none`. -/
structure Doc where
  source? : Option String
  title? : Option String
  page_content : String
  type? : Option String := none
  summary? : Option String := none
  encoded_image? : Option String := none
deriving Repr, DecidableEq

/-- `IngestionHelper.compute_doc_hash` (src/helpers/ingestion.py lines 21-30):
`hashlib.md5(json.dumps(doc, sort_keys=True, default=str).encode("utf-8")).hexdigest()`.
The md5 hexdigest of a byte string is the external `md5hex` parameter. -/
def compute_doc_hash (md5hex : String → String) (doc : String) : String :=
  md5hex (pyJsonDumpsStr doc)

/-- The string `str(doc.metadata.get("encoded_image", ""))` fed (utf-8 encoded)
to md5 by `IngestionHelper.compute_image_hash`. -/
def imageHashInput (d : Doc) : String :=
  (d.encoded_image?).getD ""

/-- `IngestionHelper.compute_image_hash` (src/helpers/ingestion.py lines 32-36):
`hashlib.md5(doc.metadata.get("encoded_image", "").encode("utf-8")).hexdigest()`. -/
def compute_image_hash (md5hex : String → String) (d : Doc) : String :=
  md5hex (imageHashInput d)

/-! ## FaissManager (src/helpers/vectorstore_manager.py) -/

/-- The in-memory FAISS vector store: index dimensionality and the docstore. -/
structure FaissStore where
  dim : Nat
  docs : List Doc
deriving Repr, DecidableEq

/-- The persisted index files at `index_path`: either loadable, reproducing a
store, or present but unreadable/corrupt (`FAISS.load_local` raises). -/
inductive DiskIndex
  | readable (store : FaissStore)
  | corrupt
deriving Repr, DecidableEq

/-- `FaissManager.save` (lines 71-75): `if self.vector_store is not None:
self.vector_store.save_local(self.index_path)`.  Returns the new disk state. -/
def FaissManager.save (vector_store : Option FaissStore)
    (disk : Option DiskIndex) : Option DiskIndex :=
  match vector_store with
  | none => disk
  | some s => some (DiskIndex.readable s)

/-- `FaissManager.load_or_create` (lines 39-64).  `disk` is the state of the
files at `index_path` (`none` = `os.path.exists` false); `embed_query` is the
external embeddings object.  Returns the loaded/created store together with
the resulting disk state, or propagates the load error (`raise e`). -/
def FaissManager.load_or_create (disk : Option DiskIndex)
    (embed_query : String → List Int) :
    Except String (FaissStore × Option DiskIndex) :=
  match disk with
  | some (DiskIndex.readable s) => Except.ok (s, some (DiskIndex.readable s))
  | some DiskIndex.corrupt => Except.error "Failed to load FAISS index"
  | none =>
    let dummy_embedding := embed_query "hello world"
    let s : FaissStore := { dim := dummy_embedding.length, docs := [] }
    Except.ok (s, FaissManager.save (some s) disk)

/-! ## VectorStoreBatchProcessor.process_urls — dedup and per-batch commit -/

/-- The argument `str(doc.metadata.get("source")) + str(doc.metadata.get("title"))`
passed to `compute_doc_hash` in `process_urls` (lines 160 and 169). -/
def docIdentityConcat (d : Doc) : String :=
  pyStr d.source? ++ pyStr d.title?

/-- The byte string fed to md5 for a document:
`json.dumps(str(source) + str(title), sort_keys=True, default=str).encode("utf-8")`. -/
def docHashInput (d : Doc) : String :=
  pyJsonDumpsStr (docIdentityConcat d)

/-- The value stored in / tested against `existing_hashes` (lines 159-172):
`json.dumps(compute_doc_hash(str(source)+str(title)), sort_keys=True, default=str).encode("utf-8")`. -/
def docHashKey (md5hex : String → String) (d : Doc) : String :=
  pyJsonDumpsStr (compute_doc_hash md5hex (docIdentityConcat d))

/-- The `existing_hashes` set built from the docstore (lines 156-164), as the
list of keys (set membership = list membership). -/
def existing_hashes (md5hex : String → String) (docstore : List Doc) :
    List String :=
  docstore.map (docHashKey md5hex)

/-- The `unique_documents` filter (lines 166-173): keep the documents of the
batch whose key is not among the store's existing hashes.  Note the set is
built from the docstore only and is not extended while filtering. -/
def unique_documents (md5hex : String → String) (docstore : List Doc)
    (documents : List Doc) : List Doc :=
  documents.filter
    (fun d => !(existing_hashes md5hex docstore).contains (docHashKey md5hex d))

/-- The prompt built by `_summarize_text` (line 113). -/
def summarize_prompt (text_element : String) : String :=
  "Summarize the following text:\n\n" ++ text_element ++ "\n\nSummary:"

/-- `_summarize_text` (lines 111-115): invoke the chat model on the prompt; any
exception from the model propagates (there is no try/except). -/
def summarize_text (summarize : String → Except String String)
    (text_element : String) : Except String String :=
  summarize (summarize_prompt text_element)

/-- The enrichment loop of `process_urls` (lines 177-180): for each unique
document in order, set `metadata["type"] = "text"` and
`metadata["summary"] = _summarize_text(page_content)`.  An exception on any
document propagates out of the loop. -/
def enrichDocs (summarize : String → Except String String) :
    List Doc → Except String (List Doc)
  | [] => Except.ok []
  | d :: ds => do
    let s ← summarize_text summarize d.page_content
    let rest ← enrichDocs summarize ds
    Except.ok ({ d with type? := some "text", summary? := some s } :: rest)

/-- Observable store effects of one batch. -/
inductive Effect
  | insertDocs (docs : List Doc)
  | persist
deriving Repr, DecidableEq

/-- The vector store as seen by the batch loop: the in-memory docstore and the
persisted copy on disk. -/
structure StoreState where
  docstore : List Doc
  disk : List Doc
deriving Repr, DecidableEq

/-- One iteration of the batch loop of `process_urls` (lines 156-186), given
the documents loaded for the batch: build `existing_hashes`, filter to
`unique_documents`; if any survive, enrich them, `add_documents` them and
`save`; otherwise skip the vector-store update.  A summarization exception
propagates and nothing of the batch is committed. -/
def process_batch (md5hex : String → String)
    (summarize : String → Except String String) (st : StoreState)
    (documents : List Doc) : Except String (StoreState × List Effect) :=
  let uniq := unique_documents md5hex st.docstore documents
  if uniq.isEmpty then Except.ok (st, [])
  else do
    let enriched ← enrichDocs summarize uniq
    let docstore' := st.docstore ++ enriched
    Except.ok ({ docstore := docstore', disk := docstore' },
               [Effect.insertDocs enriched, Effect.persist])

/-- Number of documents committed according to an effect trace. -/
def committed_count : List Effect → Nat
  | [] => 0
  | Effect.insertDocs ds :: rest => ds.length + committed_count rest
  | Effect.persist :: rest => committed_count rest

/-! ## Batch accounting and the pipeline loop (process_urls lines 101-188) -/

/-- `total_batches = (len(urls) + self._batch_size - 1) // self._batch_size`
(line 141). -/
def total_batches (n batch_size : Nat) : Nat :=
  (n + batch_size - 1) / batch_size

/-- The batch count after the optional cap
`total_batches = min(total_batches, batch_limit)` (lines 144-145). -/
def capped_batches (n batch_size : Nat) (batch_limit : Option Nat) : Nat :=
  match batch_limit with
  | none => total_batches n batch_size
  | some l => min (total_batches n batch_size) l

/-- `batch_urls = urls[start : start + batch_size]` with
`start = batch_num * batch_size` (lines 149-150). -/
def batch_urls (urls : List String) (batch_size k : Nat) : List String :=
  (urls.drop (k * batch_size)).take batch_size

/-- The sequence of URL slices the loop iterates over (line 148). -/
def batch_slices (urls : List String) (batch_size : Nat)
    (batch_limit : Option Nat) : List (List String) :=
  (List.range (capped_batches urls.length batch_size batch_limit)).map
    (batch_urls urls batch_size)

/-- All URLs handed to some processed batch, in order. -/
def processed_urls (urls : List String) (batch_size : Nat)
    (batch_limit : Option Nat) : List String :=
  (List.range (capped_batches urls.length batch_size batch_limit)).flatMap
    (batch_urls urls batch_size)

/-- `_read_urls_file` (lines 101-109): strip each line, drop blank lines; any
exception while reading is caught, logged, and turned into the empty list.
`file` is the outcome of opening/reading the file. -/
def read_urls_file (file : Except String (List String)) : List String :=
  match file with
  | Except.ok lines => (lines.map String.trim).filter (fun l => l ≠ "")
  | Except.error _ => []

/-- The batch loop of `process_urls` (lines 148-186): fold `process_batch`
over the capped batch slices, loading each batch's documents with the external
`fetch` (WebBaseLoader, one document per URL), collecting the effect traces.
An exception in any batch propagates. -/
def run_batches (md5hex : String → String)
    (summarize : String → Except String String) (fetch : String → Doc)
    (urls : List String) (batch_size : Nat) (batch_limit : Option Nat)
    (st : StoreState) : Except String (StoreState × List (List Effect)) :=
  (List.range (capped_batches urls.length batch_size batch_limit)).foldlM
    (fun acc k => do
      let documents := (batch_urls urls batch_size k).map fetch
      let res ← process_batch md5hex summarize acc.1 documents
      Except.ok (res.1, acc.2 ++ [res.2]))
    (st, [])

/-- `process_urls` (lines 117-188) with `base_url_prefix = None` (so the URL
normalization of lines 130-131 does not run): read the URL file; if no URLs
were obtained return `None` before touching the store; otherwise apply
`urls_limit`, then run the capped batch loop on the store.  The result is
`none` for the early return, and an error if a batch raised. -/
def process_urls (md5hex : String → String)
    (summarize : String → Except String String) (fetch : String → Doc)
    (file : Except String (List String)) (batch_size : Nat)
    (batch_limit urls_limit : Option Nat) (st : StoreState) :
    Except String (Option (StoreState × List (List Effect))) :=
  let urls := read_urls_file file
  if urls.isEmpty then Except.ok none
  else
    let urls := match urls_limit with
      | some m => urls.take m
      | none => urls
    (run_batches md5hex summarize fetch urls batch_size batch_limit st).map some

/-! ## process_images (lines 190-219) -/

/-- The `unique_images` filter of `process_images` (lines 200-207): keep the
candidate images whose `compute_image_hash` is not among the hashes of the
docstore's documents. -/
def unique_images (md5hex : String → String) (docstore : List Doc)
    (docs : List Doc) : List Doc :=
  docs.filter
    (fun d => !(docstore.map (compute_image_hash md5hex)).contains
        (compute_image_hash md5hex d))

/-- The commit step of `process_images` (lines 204-214): if any unique images
survive, `add_documents` them and `save`; otherwise skip the update. -/
def process_images (md5hex : String → String) (st : StoreState)
    (docs : List Doc) : StoreState × List Effect :=
  let uniq := unique_images md5hex st.docstore docs
  if uniq.isEmpty then (st, [])
  else ({ docstore := st.docstore ++ uniq, disk := st.docstore ++ uniq },
        [Effect.insertDocs uniq, Effect.persist])

/-! ## First theorems: C3 and C9 -/

/-- C3: `load_or_create` loads a readable persisted index as-is; propagates the
load error on present-but-unreadable files; and on an absent index creates an
empty store whose dimensionality is the length of the probe embedding
`embed_query("hello world")` and persists it immediately, before any insert
(the persisted store has an empty docstore). -/
theorem C3_load_or_create_spec :
    ∀ (s : FaissStore) (e : String → List Int),
      FaissManager.load_or_create (some (DiskIndex.readable s)) e
          = Except.ok (s, some (DiskIndex.readable s))
    ∧ (∃ msg, FaissManager.load_or_create (some DiskIndex.corrupt) e
          = Except.error msg)
    ∧ FaissManager.load_or_create none e
          = Except.ok ({ dim := (e "hello world").length, docs := [] },
              some (DiskIndex.readable
                { dim := (e "hello world").length, docs := [] })) := by
  intro s e
  refine ⟨rfl, ⟨"Failed to load FAISS index", rfl⟩, rfl⟩

/-! ## C4: batch accounting -/

lemma total_batches_mul_ge (n B : Nat) (hB : 0 < B) :
    n ≤ total_batches n B * B ∧ total_batches n B * B < n + B := by
  unfold total_batches
  have h1 := Nat.div_add_mod (n + B - 1) B
  have h2 := Nat.mod_lt (n + B - 1) hB
  rw [Nat.mul_comm]
  omega

lemma range_flatMap_batch (urls : List String) (b : Nat) (k : Nat) :
    (List.range k).flatMap (batch_urls urls b) = urls.take (k * b) := by
  induction k with
  | zero => simp
  | succ k ih =>
    rw [List.range_succ, List.flatMap_append, ih]
    simp [batch_urls, Nat.succ_mul, List.take_add]

/-- C4: batch accounting.  For batch size `B > 0`:
(1) `total_batches n B` is `ceil(n / B)` — characterized by
`n ≤ total_batches * B < n + B`;
(2) for any `batch_limit = L ≤ total_batches`, the processed URLs are exactly
the first `L * B` items of the source list (fewer when the list is shorter);
(3) the cap never changes which items belong to batch `k`: under any limit the
`k`-th processed slice is the contiguous slice `[k*B, (k+1)*B)`. -/
theorem C4_batch_accounting (B : Nat) (hB : 0 < B) :
    (∀ n : Nat, n ≤ total_batches n B * B ∧ total_batches n B * B < n + B)
    ∧ (∀ (urls : List String) (L : Nat),
        L ≤ total_batches urls.length B →
        processed_urls urls B (some L) = urls.take (L * B))
    ∧ (∀ (urls : List String) (lim : Option Nat) (k : Nat),
        k < capped_batches urls.length B lim →
        (batch_slices urls B lim)[k]? = some ((urls.drop (k * B)).take B)) := by
  refine ⟨fun n => total_batches_mul_ge n B hB, ?_, ?_⟩
  · intro urls L hL
    have hc : capped_batches urls.length B (some L) = L := by
      simp [capped_batches, Nat.min_eq_right hL]
    unfold processed_urls
    rw [hc, range_flatMap_batch]
  · intro urls lim k hk
    unfold batch_slices
    rw [List.getElem?_map, List.getElem?_range hk]
    rfl

/-- C4 witness: 5 URLs with batch size 2 give 3 total batches; limit 2
processes exactly the first 4 URLs; batch 1 under the limit is the slice
`[2, 4)`. -/
theorem C4_batch_accounting_witness :
    total_batches 5 2 * 2 = 6
    ∧ processed_urls ["u1", "u2", "u3", "u4", "u5"] 2 (some 2)
        = ["u1", "u2", "u3", "u4"]
    ∧ (batch_slices ["u1", "u2", "u3", "u4", "u5"] 2 (some 2))[1]?
        = some ["u3", "u4"] := by
  have h := C4_batch_accounting 2 (by decide)
  refine ⟨by decide, ?_, ?_⟩
  · have := h.2.1 ["u1", "u2", "u3", "u4", "u5"] 2 (by decide)
    simpa using this
  · have := h.2.2 ["u1", "u2", "u3", "u4", "u5"] (some 2) 1 (by decide)
    simpa using this

/-- C9: calling `FaissManager.save` while `vector_store` is `None` is a silent
no-op: the disk state is returned unchanged, whatever it was. -/
theorem C9_save_none_noop :
    ∀ disk : Option DiskIndex, FaissManager.save none disk = disk := by
  intro disk
  rfl

/-! ## Concrete documents for witnesses and counterexamples -/

/-- A concrete fetched article. -/
def articleA : Doc :=
  { source? := some "https://a/1", title? := some "T", page_content := "bodyA" }

/-- The same article fetched again, with different content text. -/
def articleA2 : Doc :=
  { source? := some "https://a/1", title? := some "T", page_content := "bodyA2" }

/-- A second, distinct article. -/
def articleB : Doc :=
  { source? := some "https://a/2", title? := some "U", page_content := "bodyB" }

/-- A third, distinct article. -/
def articleC : Doc :=
  { source? := some "https://a/3", title? := some "V", page_content := "bodyC" }

/-! ## C5/C1 helper: the fingerprint is a function of (source, title) -/

lemma docHashKey_congr (md5hex : String → String) (d1 d2 : Doc)
    (hs : d1.source? = d2.source?) (ht : d1.title? = d2.title?) :
    docHashKey md5hex d1 = docHashKey md5hex d2 := by
  unfold docHashKey compute_doc_hash docIdentityConcat
  rw [hs, ht]

/-! ## C1: same-batch duplicates -/

/-- C1 counterexample: a batch of two fetched documents with identical
`(source, title)` identity (and different content), against an empty store,
passes the dedup filter entirely — `process_batch` commits two records, not
one.  The `existing_hashes` set is never extended with earlier same-batch
candidates. -/
theorem C1_same_batch_duplicates_cex :
    articleA.source? = articleA2.source?
    ∧ articleA.title? = articleA2.title?
    ∧ articleA.page_content ≠ articleA2.page_content
    ∧ unique_documents id [] [articleA, articleA2] = [articleA, articleA2]
    ∧ committed_count
        (match process_batch id (fun _ => Except.ok "S") ⟨[], []⟩
            [articleA, articleA2] with
          | Except.ok res => res.2
          | Except.error _ => []) = 2 := by
  refine ⟨rfl, rfl, by decide, by decide, by decide⟩

/-- C1 amended: the dedup filter compares each candidate's fingerprint only
against the store's existing fingerprints, not against earlier candidates of
the same batch; hence two batch items with identical identity fields, neither
already in the store, both survive the filter (and both are committed). -/
theorem C1_dedup_ignores_same_batch (md5hex : String → String)
    (st : StoreState) (d1 d2 : Doc)
    (hs : d1.source? = d2.source?) (ht : d1.title? = d2.title?)
    (hnew : (existing_hashes md5hex st.docstore).contains (docHashKey md5hex d1)
        = false) :
    unique_documents md5hex st.docstore [d1, d2] = [d1, d2] := by
  have hkey := docHashKey_congr md5hex d1 d2 hs ht
  have hni : docHashKey md5hex d1 ∉ existing_hashes md5hex st.docstore := by
    intro hm
    have hc := List.elem_iff.mpr hm
    unfold List.contains at hnew
    rw [hnew] at hc
    cases hc
  simp [unique_documents, ← hkey, hni]

/-- C1 amended witness: the two same-identity articles against the empty
store. -/
theorem C1_dedup_ignores_same_batch_witness :
    unique_documents id [] [articleA, articleA2] = [articleA, articleA2] :=
  C1_dedup_ignores_same_batch id ⟨[], []⟩ articleA articleA2 rfl rfl (by decide)

/-! ## C5: fingerprints depend only on (source, title) -/

/-- C5: the document fingerprint is a function of the `source` and `title`
identity fields alone: two documents with equal source and title get equal
fingerprints (both the raw `compute_doc_hash` value and the `existing_hashes`
key) whatever their content text; and fingerprinting is deterministic — the
same document always yields the same fingerprint. -/
theorem C5_fingerprint_identity_only (md5hex : String → String) (d1 d2 : Doc)
    (hs : d1.source? = d2.source?) (ht : d1.title? = d2.title?) :
    compute_doc_hash md5hex (docIdentityConcat d1)
      = compute_doc_hash md5hex (docIdentityConcat d2)
    ∧ docHashKey md5hex d1 = docHashKey md5hex d2
    ∧ docHashKey md5hex d1 = docHashKey md5hex d1 := by
  refine ⟨?_, docHashKey_congr md5hex d1 d2 hs ht, rfl⟩
  unfold compute_doc_hash docIdentityConcat
  rw [hs, ht]

/-- C5 witness: the two articles differing only in content text. -/
theorem C5_fingerprint_identity_only_witness :
    articleA.page_content ≠ articleA2.page_content
    ∧ (compute_doc_hash id (docIdentityConcat articleA)
        = compute_doc_hash id (docIdentityConcat articleA2)
      ∧ docHashKey id articleA = docHashKey id articleA2
      ∧ docHashKey id articleA = docHashKey id articleA) :=
  ⟨by decide, C5_fingerprint_identity_only id articleA articleA2 rfl rfl⟩

/-! ## C6: the serialization of the identity fields is ambiguous -/

/-- A document whose identity pair is `("ab", "c")`. -/
def pairDocAB : Doc :=
  { source? := some "ab", title? := some "c", page_content := "x" }

/-- A document whose identity pair is `("a", "bc")`. -/
def pairDocA : Doc :=
  { source? := some "a", title? := some "bc", page_content := "y" }

/-! ### Injectivity of the JSON string serialization

`json.dumps` of a `str` is injective in the string (the escaping is uniquely
decodable), so collisions of `docHashInput` happen exactly when the bare
concatenations `str(source) + str(title)` coincide. -/

/-- Value of a lower-case hexadecimal digit character. -/
def hexVal (c : Char) : Nat :=
  if 97 ≤ c.toNat then c.toNat - 87 else c.toNat - 48

/-- One decoding step: reads back the escape sequence produced for one
character.  Used only to establish that the escaping is uniquely decodable. -/
def jsonDecodeStep : List Char → Option (Char × List Char)
  | [] => none
  | c :: rest =>
    if c = '\\' then
      match rest with
      | [] => none
      | e :: rest1 =>
        if e = 'u' then
          match rest1 with
          | a :: b :: c2 :: d :: rest2 =>
            let n := hexVal a * 4096 + hexVal b * 256 + hexVal c2 * 16 + hexVal d
            if 55296 ≤ n ∧ n < 56320 then
              match rest2 with
              | s1 :: s2 :: a2 :: b2 :: c3 :: d2 :: rest3 =>
                if s1 = '\\' ∧ s2 = 'u' then
                  let m := hexVal a2 * 4096 + hexVal b2 * 256
                    + hexVal c3 * 16 + hexVal d2
                  some (Char.ofNat (65536 + (n - 55296) * 1024 + (m - 56320)),
                        rest3)
                else none
              | _ => none
            else some (Char.ofNat n, rest2)
          | _ => none
        else if e = '"' then some ('"', rest1)
        else if e = '\\' then some ('\\', rest1)
        else if e = 'n' then some ('\n', rest1)
        else if e = 'r' then some ('\r', rest1)
        else if e = 't' then some ('\t', rest1)
        else if e = 'b' then some (Char.ofNat 8, rest1)
        else if e = 'f' then some (Char.ofNat 12, rest1)
        else none
    else some (c, rest)

lemma hexVal_hexDigit : ∀ n < 16, hexVal (hexDigit n) = n := by decide

lemma uEscape_decode (n : Nat) (hn : n < 65536) :
    hexVal (hexDigit (n / 4096 % 16)) * 4096
      + hexVal (hexDigit (n / 256 % 16)) * 256
      + hexVal (hexDigit (n / 16 % 16)) * 16
      + hexVal (hexDigit (n % 16)) = n := by
  rw [hexVal_hexDigit _ (Nat.mod_lt _ (by omega)),
      hexVal_hexDigit _ (Nat.mod_lt _ (by omega)),
      hexVal_hexDigit _ (Nat.mod_lt _ (by omega)),
      hexVal_hexDigit _ (Nat.mod_lt _ (by omega))]
  omega

lemma char_toNat_valid (c : Char) :
    c.toNat < 55296 ∨ (57343 < c.toNat ∧ c.toNat < 1114112) := by
  have h := c.valid
  unfold UInt32.isValidChar Nat.isValidChar at h
  exact h

lemma jsonDecodeStep_lit (c : Char) (hc : ¬ c = '\\') (rest : List Char) :
    jsonDecodeStep (c :: rest) = some (c, rest) := by
  simp only [jsonDecodeStep]
  rw [if_neg hc]

lemma jsonDecodeStep_uEscape (n : Nat) (hn : n < 65536)
    (hs : ¬ (55296 ≤ n ∧ n < 56320)) (rest : List Char) :
    jsonDecodeStep (uEscape n ++ rest) = some (Char.ofNat n, rest) := by
  simp only [uEscape, List.cons_append, List.nil_append, jsonDecodeStep]
  rw [uEscape_decode n hn]
  simp [hs]

lemma jsonDecodeStep_surrogate (n : Nat) (h1 : 65536 ≤ n) (h2 : n < 1114112)
    (rest : List Char) :
    jsonDecodeStep (uEscape (55296 + (n - 65536) / 1024)
        ++ (uEscape (56320 + (n - 65536) % 1024) ++ rest))
      = some (Char.ofNat n, rest) := by
  have hhi : (n - 65536) / 1024 < 1024 := by omega
  have hlo : (n - 65536) % 1024 < 1024 := Nat.mod_lt _ (by omega)
  simp only [uEscape, List.cons_append, List.nil_append, jsonDecodeStep]
  rw [uEscape_decode _ (by omega), uEscape_decode _ (by omega)]
  rw [if_pos (by omega :
    55296 ≤ 55296 + (n - 65536) / 1024 ∧ 55296 + (n - 65536) / 1024 < 56320)]
  simp only [if_pos (And.intro trivial trivial), if_true, and_self, ite_true]
  simp
  exact congrArg Char.ofNat (by omega)

lemma jsonDecodeStep_escape (c : Char) (rest : List Char) :
    jsonDecodeStep (jsonEscapeChar c ++ rest) = some (c, rest) := by
  by_cases h1 : c = '"'
  · subst h1; rfl
  by_cases h2 : c = '\\'
  · subst h2; rfl
  by_cases h3 : c = '\n'
  · subst h3; rfl
  by_cases h4 : c = '\r'
  · subst h4; rfl
  by_cases h5 : c = '\t'
  · subst h5; rfl
  by_cases h6 : c.toNat = 8
  · have hc : c = Char.ofNat 8 := by rw [← h6, Char.ofNat_toNat]
    subst hc; rfl
  by_cases h7 : c.toNat = 12
  · have hc : c = Char.ofNat 12 := by rw [← h7, Char.ofNat_toNat]
    subst hc; rfl
  by_cases h8 : c.toNat < 32
  · have hesc : jsonEscapeChar c = uEscape c.toNat := by
      simp only [jsonEscapeChar]
      rw [if_neg h1, if_neg h2, if_neg h3, if_neg h4, if_neg h5, if_neg h6,
          if_neg h7, if_pos h8]
    rw [hesc, jsonDecodeStep_uEscape c.toNat (by omega) (by omega),
        Char.ofNat_toNat]
  by_cases h9 : c.toNat < 127
  · have hesc : jsonEscapeChar c = [c] := by
      simp only [jsonEscapeChar]
      rw [if_neg h1, if_neg h2, if_neg h3, if_neg h4, if_neg h5, if_neg h6,
          if_neg h7, if_neg h8, if_pos h9]
    rw [hesc]
    exact jsonDecodeStep_lit c h2 rest
  have hvalid := char_toNat_valid c
  by_cases h10 : c.toNat < 65536
  · have hesc : jsonEscapeChar c = uEscape c.toNat := by
      simp only [jsonEscapeChar]
      rw [if_neg h1, if_neg h2, if_neg h3, if_neg h4, if_neg h5, if_neg h6,
          if_neg h7, if_neg h8, if_neg h9, if_pos h10]
    have hns : ¬ (55296 ≤ c.toNat ∧ c.toNat < 56320) := by
      rcases hvalid with hv | hv <;> omega
    rw [hesc, jsonDecodeStep_uEscape c.toNat h10 hns, Char.ofNat_toNat]
  · have hesc : jsonEscapeChar c
        = uEscape (55296 + (c.toNat - 65536) / 1024)
          ++ uEscape (56320 + (c.toNat - 65536) % 1024) := by
      simp only [jsonEscapeChar]
      rw [if_neg h1, if_neg h2, if_neg h3, if_neg h4, if_neg h5, if_neg h6,
          if_neg h7, if_neg h8, if_neg h9, if_neg h10]
    have hub : c.toNat < 1114112 := by
      rcases hvalid with hv | hv <;> omega
    rw [hesc, List.append_assoc,
        jsonDecodeStep_surrogate c.toNat (by omega) hub, Char.ofNat_toNat]

lemma flatMap_jsonEscape_inj : ∀ l1 l2 : List Char,
    l1.flatMap jsonEscapeChar = l2.flatMap jsonEscapeChar → l1 = l2 := by
  intro l1
  induction l1 with
  | nil =>
    intro l2 h
    cases l2 with
    | nil => rfl
    | cons c cs =>
      rw [List.flatMap_nil, List.flatMap_cons] at h
      have hstep := congrArg jsonDecodeStep h
      rw [jsonDecodeStep_escape] at hstep
      simp [jsonDecodeStep] at hstep
  | cons c cs ih =>
    intro l2 h
    cases l2 with
    | nil =>
      rw [List.flatMap_cons, List.flatMap_nil] at h
      have hstep := congrArg jsonDecodeStep h
      rw [jsonDecodeStep_escape] at hstep
      simp [jsonDecodeStep] at hstep
    | cons c2 cs2 =>
      rw [List.flatMap_cons, List.flatMap_cons] at h
      have hstep := congrArg jsonDecodeStep h
      rw [jsonDecodeStep_escape, jsonDecodeStep_escape] at hstep
      injection hstep with hpair
      injection hpair with hc hr
      rw [hc, ih cs2 hr]

lemma pyJsonDumpsStr_inj (s t : String)
    (h : pyJsonDumpsStr s = pyJsonDumpsStr t) : s = t := by
  unfold pyJsonDumpsStr at h
  have hd := congrArg String.data h
  simp only [List.cons_append] at hd
  simp at hd
  exact String.ext (flatMap_jsonEscape_inj _ _ hd)

/-- C6 counterexample: the hash input is `json.dumps(str(source)+str(title))` —
plain concatenation with no separator — so the distinct identity pairs
`("ab", "c")` and `("a", "bc")` feed byte-identical input to the hash
function. -/
theorem C6_serialization_ambiguous_cex :
    (pairDocAB.source?, pairDocAB.title?) ≠ (pairDocA.source?, pairDocA.title?)
    ∧ docHashInput pairDocAB = docHashInput pairDocA := by
  exact ⟨by decide, by decide⟩

/-- C6 amended: the serialization joins the identity fields with no separator:
the byte strings fed to the hash function coincide exactly when the bare
concatenations `str(source) ++ str(title)` coincide (the JSON escaping itself
is injective).  In particular distinct `(source, title)` pairs with equal
concatenation serialize identically. -/
theorem C6_hash_input_from_concat (d1 d2 : Doc) :
    docHashInput d1 = docHashInput d2
      ↔ docIdentityConcat d1 = docIdentityConcat d2 := by
  constructor
  · intro h
    exact pyJsonDumpsStr_inj _ _ h
  · intro h
    unfold docHashInput
    rw [h]

/-- C6 amended witness: the colliding pairs `("ab", "c")` and `("a", "bc")`. -/
theorem C6_hash_input_from_concat_witness :
    docHashInput pairDocAB = docHashInput pairDocA :=
  (C6_hash_input_from_concat pairDocAB pairDocA).mpr (by decide)

/-! ## C2: a summarization failure aborts the whole batch -/

/-- A summarizer that fails exactly on the prompt built for `articleB`. -/
def failingSummarizer : String → Except String String :=
  fun p => if p = summarize_prompt articleB.page_content
    then Except.error "boom" else Except.ok "S"

/-- C2 counterexample: a batch of three new documents in which enrichment of
the second one fails.  `process_batch` propagates the error: the whole batch
raises and zero documents are committed, not two. -/
theorem C2_enrich_failure_aborts_cex :
    unique_documents id [] [articleA, articleB, articleC]
      = [articleA, articleB, articleC]
    ∧ process_batch id failingSummarizer ⟨[], []⟩ [articleA, articleB, articleC]
      = Except.error "boom" := by
  exact ⟨by decide, rfl⟩

lemma enrichDocs_nil_ok (summarize : String → Except String String) :
    enrichDocs summarize [] = Except.ok [] := rfl

/-- C2 amended: an enricher (summarization) failure on any item of a batch is
not caught: the exception propagates out of the batch step, the batch is
aborted and none of its items — including the ones whose enrichment
succeeded — is inserted or persisted. -/
theorem C2_enrich_failure_propagates (md5hex : String → String)
    (summarize : String → Except String String) (st : StoreState)
    (documents : List Doc) (msg : String)
    (h : enrichDocs summarize (unique_documents md5hex st.docstore documents)
        = Except.error msg) :
    process_batch md5hex summarize st documents = Except.error msg := by
  have hne : (unique_documents md5hex st.docstore documents).isEmpty ≠ true := by
    intro he
    rw [List.isEmpty_iff.mp he, enrichDocs_nil_ok] at h
    cases h
  unfold process_batch
  rw [if_neg hne]
  rw [show (do
        let enriched ← enrichDocs summarize
          (unique_documents md5hex st.docstore documents)
        let docstore' := st.docstore ++ enriched
        Except.ok ({ docstore := docstore', disk := docstore' },
          [Effect.insertDocs enriched, Effect.persist]) :
      Except String (StoreState × List Effect))
    = Except.bind (enrichDocs summarize
        (unique_documents md5hex st.docstore documents)) _ from rfl]
  rw [h]
  rfl

/-- C2 amended witness: the concrete three-document batch whose second item
fails to summarize. -/
theorem C2_enrich_failure_propagates_witness :
    process_batch id failingSummarizer ⟨[], []⟩ [articleA, articleB, articleC]
      = Except.error "boom" :=
  C2_enrich_failure_propagates id failingSummarizer ⟨[], []⟩
    [articleA, articleB, articleC] "boom" (by rfl)

/-! ## C7: empty new set touches nothing; persist only after non-empty insert -/

lemma enrichDocs_length (summarize : String → Except String String) :
    ∀ l l' : List Doc, enrichDocs summarize l = Except.ok l' →
      l'.length = l.length := by
  intro l
  induction l with
  | nil =>
    intro l' h
    rw [enrichDocs_nil_ok] at h
    cases h
    rfl
  | cons d ds ih =>
    intro l' h
    unfold enrichDocs at h
    cases hs : summarize_text summarize d.page_content with
    | error e =>
      rw [hs] at h
      cases h
    | ok s =>
      rw [hs] at h
      cases hr : enrichDocs summarize ds with
      | error e =>
        rw [hr] at h
        cases h
      | ok rest =>
        rw [hr] at h
        cases h
        simp [ih rest hr]

/-- C7: if a batch's set of new (non-duplicate) documents is empty, the batch
step leaves the store completely untouched — same in-memory docstore, same
persisted state, no insert and no persist effect; and whenever a persist
effect is emitted at all, it follows an insert of a non-empty document list
which is also what the persisted state then reflects. -/
theorem C7_empty_batch_no_update (md5hex : String → String)
    (summarize : String → Except String String) (st : StoreState)
    (documents : List Doc) :
    (unique_documents md5hex st.docstore documents = [] →
      process_batch md5hex summarize st documents = Except.ok (st, []))
    ∧ (∀ st' effs,
        process_batch md5hex summarize st documents = Except.ok (st', effs) →
        Effect.persist ∈ effs →
        ∃ ds, ds ≠ []
          ∧ Effect.insertDocs ds ∈ effs
          ∧ st'.docstore = st.docstore ++ ds
          ∧ st'.disk = st.docstore ++ ds) := by
  constructor
  · intro h
    unfold process_batch
    rw [h]
    rfl
  · intro st' effs h hp
    unfold process_batch at h
    by_cases he : (unique_documents md5hex st.docstore documents).isEmpty = true
    · rw [if_pos he] at h
      cases h
      cases hp
    · rw [if_neg he] at h
      cases hr : enrichDocs summarize
          (unique_documents md5hex st.docstore documents) with
      | error e =>
        rw [show (do
              let enriched ← enrichDocs summarize
                (unique_documents md5hex st.docstore documents)
              let docstore' := st.docstore ++ enriched
              Except.ok ({ docstore := docstore', disk := docstore' },
                [Effect.insertDocs enriched, Effect.persist]) :
            Except String (StoreState × List Effect))
          = Except.bind (enrichDocs summarize
              (unique_documents md5hex st.docstore documents)) _ from rfl,
          hr] at h
        cases h
      | ok enriched =>
        rw [show (do
              let enriched ← enrichDocs summarize
                (unique_documents md5hex st.docstore documents)
              let docstore' := st.docstore ++ enriched
              Except.ok ({ docstore := docstore', disk := docstore' },
                [Effect.insertDocs enriched, Effect.persist]) :
            Except String (StoreState × List Effect))
          = Except.bind (enrichDocs summarize
              (unique_documents md5hex st.docstore documents)) _ from rfl,
          hr] at h
        cases h
        refine ⟨enriched, ?_, by simp, rfl, rfl⟩
        intro hnil
        have hlen := enrichDocs_length summarize _ _ hr
        rw [hnil] at hlen
        have : (unique_documents md5hex st.docstore documents) = [] := by
          cases hu : unique_documents md5hex st.docstore documents with
          | nil => rfl
          | cons a as =>
            rw [hu] at hlen
            cases hlen
        rw [this] at he
        exact he rfl

/-- C7 witness: a batch whose only document duplicates the one already in the
store leaves the store untouched. -/
theorem C7_empty_batch_no_update_witness :
    process_batch id (fun _ => Except.ok "S")
        ⟨[articleA], [articleA]⟩ [articleA2]
      = Except.ok (⟨[articleA], [articleA]⟩, []) :=
  (C7_empty_batch_no_update id (fun _ => Except.ok "S")
    ⟨[articleA], [articleA]⟩ [articleA2]).1 (by decide)

/-! ## C8: a source-file read error is swallowed, not propagated -/

/-- C8 counterexample: a read error on the URL file is converted into an empty
URL list, and `process_urls` then returns the no-URLs result `Except.ok none`
— not an error — exactly the same outcome as reading an empty file.  The
caller cannot distinguish the failure from an empty source list. -/
theorem C8_read_error_swallowed_cex :
    read_urls_file (Except.error "No such file or directory") = []
    ∧ process_urls id (fun _ => Except.ok "S") (fun _ => articleA)
        (Except.error "No such file or directory") 2 none none ⟨[], []⟩
      = Except.ok none
    ∧ process_urls id (fun _ => Except.ok "S") (fun _ => articleA)
        (Except.error "No such file or directory") 2 none none ⟨[], []⟩
      = process_urls id (fun _ => Except.ok "S") (fun _ => articleA)
          (Except.ok []) 2 none none ⟨[], []⟩ := by
  exact ⟨rfl, rfl, rfl⟩

/-- C8 amended: a missing or unreadable source list file is caught inside
`_read_urls_file` and silently converted into an empty URL list;
`process_urls` then returns `None` before loading the store and processes no
batch.  No partial run happens, but no failure is reported either — the
outcome is the same as for an empty source list. -/
theorem C8_read_error_returns_none (md5hex : String → String)
    (summarize : String → Except String String) (fetch : String → Doc)
    (msg : String) (batch_size : Nat) (batch_limit urls_limit : Option Nat)
    (st : StoreState) :
    read_urls_file (Except.error msg) = []
    ∧ process_urls md5hex summarize fetch (Except.error msg) batch_size
        batch_limit urls_limit st = Except.ok none := by
  exact ⟨rfl, rfl⟩

/-! ## C10: images with absent or empty encodings share one fingerprint -/

/-- An image document whose `encoded_image` metadata is absent. -/
def imageNoneDoc : Doc :=
  { source? := none, title? := none, page_content := "caption one",
    type? := some "image", encoded_image? := none }

/-- An image document whose `encoded_image` metadata is the empty string, as
produced when `_encode_image` fails and returns `""`. -/
def imageEmptyDoc : Doc :=
  { source? := none, title? := none, page_content := "caption two",
    type? := some "image", encoded_image? := some "" }

/-- C10 counterexample: two distinct images with absent/empty encodings share
the fixed fingerprint `md5("")`, yet a single `process_images` call against a
store not containing that fingerprint commits both of them — so more than one
such image can be committed against one store. -/
theorem C10_multiple_empty_images_cex :
    imageNoneDoc ≠ imageEmptyDoc
    ∧ compute_image_hash id imageNoneDoc = compute_image_hash id imageEmptyDoc
    ∧ committed_count (process_images id ⟨[], []⟩
        [imageNoneDoc, imageEmptyDoc]).2 = 2 := by
  exact ⟨by decide, rfl, rfl⟩

/-- C10 amended: every image document whose `encoded_image` metadata is absent
or empty gets the same fixed fingerprint (the hash of the empty string); once
any document with that fingerprint is in the store, a later `process_images`
call commits no such image — but one call can commit several of them
together. -/
theorem C10_empty_image_fingerprint (md5hex : String → String) (d1 d2 : Doc)
    (h1 : d1.encoded_image? = none ∨ d1.encoded_image? = some "")
    (h2 : d2.encoded_image? = none ∨ d2.encoded_image? = some "")
    (st : StoreState) (docs : List Doc) (e : Doc)
    (he : e ∈ st.docstore) (hee : imageHashInput e = "") :
    compute_image_hash md5hex d1 = compute_image_hash md5hex d2
    ∧ d1 ∉ unique_images md5hex st.docstore docs := by
  have hin1 : imageHashInput d1 = "" := by
    unfold imageHashInput
    cases h1 with
    | inl h => rw [h]; rfl
    | inr h => rw [h]; rfl
  have hin2 : imageHashInput d2 = "" := by
    unfold imageHashInput
    cases h2 with
    | inl h => rw [h]; rfl
    | inr h => rw [h]; rfl
  constructor
  · unfold compute_image_hash
    rw [hin1, hin2]
  · intro hm
    have hmem := List.mem_filter.mp hm
    have hcont : (st.docstore.map (compute_image_hash md5hex)).contains
        (compute_image_hash md5hex d1) = true := by
      apply List.elem_iff.mpr
      refine List.mem_map.mpr ⟨e, he, ?_⟩
      unfold compute_image_hash
      rw [hee, hin1]
    rw [hcont] at hmem
    cases hmem.2

/-- C10 amended witness: once the empty-encoding fingerprint is in the store,
the absent-encoding image is filtered out. -/
theorem C10_empty_image_fingerprint_witness :
    compute_image_hash id imageNoneDoc = compute_image_hash id imageEmptyDoc
    ∧ imageNoneDoc ∉ unique_images id
        (StoreState.mk [imageEmptyDoc] [imageEmptyDoc]).docstore
        [imageNoneDoc] :=
  C10_empty_image_fingerprint id imageNoneDoc imageEmptyDoc
    (Or.inl rfl) (Or.inr rfl) ⟨[imageEmptyDoc], [imageEmptyDoc]⟩
    [imageNoneDoc] imageEmptyDoc (by simp) rfl

end BatchRag
